import Mathlib

/-!
Shallow embedding of `src/convert.py` (repository CC-MidiParser) and of the
two `mido` library helpers it calls, together with proofs settling the
frozen claims about the spec.

Modelling conventions:
* Python unbounded integers are `ℕ` (all quantities here are non-negative).
* Python floats are modelled as exact rationals `ℚ`; the claims settled
  below concern ordering, zero/non-zero distinctions, argument order and
  string shape, none of which depend on rounding of binary floats.
* The event stream produced by `mido.MidiFile` is modelled as the parsed
  data (tracks of messages); file I/O is modelled by an explicit run
  function over the possible outcomes (file missing, parse error, parsed
  file) and the previous contents of the output file.
-/

namespace CCMidiParser

/-- Message type tag of a parsed MIDI message (`msg.type` in the source);
`other` covers every type the script does not inspect. -/
inductive EvType
  | note_on
  | note_off
  | set_tempo
  | other
deriving DecidableEq, Repr

/-- One parsed MIDI message. `deltaTicks` is `msg.time` (delta time in
ticks), `note`, `velocity`, `tempo` are the attributes the script reads;
fields not meaningful for a given type are simply unread. -/
structure Event where
  type : EvType
  deltaTicks : ℕ
  note : ℕ
  velocity : ℕ
  tempo : ℕ
deriving DecidableEq, Repr

/-- A MIDI track: an ordered list of messages, as iterated by
`for msg in track` in the source. -/
abbrev Track := List Event

/-- A parsed MIDI file: `ticks_per_beat` from the header plus the track
list, as iterated by `for i, track in enumerate(midi_file.tracks)`. -/
structure MidiFile where
  ticks_per_beat : ℕ
  tracks : List Track
deriving DecidableEq, Repr

/-- The external library function `mido.bpm2tempo(bpm)`, which returns
`int(round(60 * 1e6 / bpm))` (microseconds per beat), modelled over `ℚ`. -/
def bpm2tempo (bpm : ℚ) : ℤ :=
  round (60000000 / bpm)

/-- The external library function `mido.tick2second(tick, ticks_per_beat,
tempo)`. Its documented positional parameters are, in order: `tick`,
`ticks_per_beat` (pulses per quarter note) and `tempo` (microseconds per
beat), and it returns `tick * (tempo * 1e-6 / ticks_per_beat)`. The
parameter order matters below because `convert.py` line 78 passes
`(msg.time, current_tempo, ppq)` positionally. -/
def tick2second (tick ticks_per_beat tempo : ℕ) : ℚ :=
  (tick : ℚ) * ((tempo : ℚ) * (1 / 1000000) / (ticks_per_beat : ℚ))

/-- Constant `TARGET_SIZE = 36` from the source. -/
def TARGET_SIZE : ℕ := 36

/-- Constant `BASE_NOTE = 36` from the source. -/
def BASE_NOTE : ℕ := 36

/-- The source function `map_note_to_36(midi_note)`: fold the pitch with
`midi_note % TARGET_SIZE` and add `BASE_NOTE`. -/
def map_note_to_36 (midi_note : ℕ) : ℕ :=
  midi_note % TARGET_SIZE + BASE_NOTE

/-- The running accumulator of `ticks_to_seconds`: `current_tempo`,
`absolute_tick_time` and `absolute_second_time`. -/
structure TState where
  tempo : ℕ
  ticks : ℕ
  secs : ℚ
deriving DecidableEq, Repr

/-- One emitted note record: the `action`, the mapped pitch and the
absolute time in seconds that go into one output line. -/
structure OutputRecord where
  action : String
  pitch : ℕ
  time : ℚ
deriving DecidableEq, Repr

/-- The body of the inner `for msg in track` loop of `ticks_to_seconds`
(lines 72-95 of the source): accumulate ticks, convert the delta with the
tempo in effect BEFORE the message (the source calls
`mido.tick2second(msg.time, current_tempo, ppq)`, i.e. with
`current_tempo` in the `ticks_per_beat` position and `ppq` in the `tempo`
position), then update the tempo on `set_tempo`, then emit a record when
the message is a `note_on` with positive velocity or a `note_off`. -/
def processMsg (ppq : ℕ) (s : TState) (msg : Event) : TState × List OutputRecord :=
  let ticks := s.ticks + msg.deltaTicks
  let secs := s.secs + tick2second msg.deltaTicks s.tempo ppq
  let tempo := if msg.type = EvType.set_tempo then msg.tempo else s.tempo
  if (msg.type = EvType.note_on ∧ msg.velocity > 0) ∨ msg.type = EvType.note_off then
    (⟨tempo, ticks, secs⟩,
      [⟨if msg.type = EvType.note_on ∧ msg.velocity > 0 then "on" else "off",
        map_note_to_36 msg.note, secs⟩])
  else
    (⟨tempo, ticks, secs⟩, [])

/-- One loop step threading the state and appending the emitted records. -/
def stepTM (ppq : ℕ) (sr : TState × List OutputRecord) (msg : Event) :
    TState × List OutputRecord :=
  let p := processMsg ppq sr.1 msg
  (p.1, sr.2 ++ p.2)

/-- The inner loop over one track. -/
def processTrack (ppq : ℕ) (sr : TState × List OutputRecord) (t : Track) :
    TState × List OutputRecord :=
  t.foldl (stepTM ppq) sr

/-- The outer loop over all tracks. Note that the state is threaded from
track to track unchanged: the source initialises `absolute_tick_time`,
`absolute_second_time` and `current_tempo` once, before this loop, and
never resets them inside it. -/
def processTracks (ppq : ℕ) (sr : TState × List OutputRecord) (ts : List Track) :
    TState × List OutputRecord :=
  ts.foldl (processTrack ppq) sr

/-- The initial accumulator state (lines 47-52 of the source):
`current_tempo = mido.bpm2tempo(120)`, both time counters zero. -/
def initState : TState :=
  ⟨(bpm2tempo 120).toNat, 0, 0⟩

/-- The full conversion: the records emitted, in order, by running the two
nested loops of `ticks_to_seconds` over a parsed file. -/
def convert (f : MidiFile) : List OutputRecord :=
  (processTracks f.ticks_per_beat (initState, []) f.tracks).2

/-- Modelled from the spec: the variant of `convert` described in spec
section 3/4.1, which resets `absoluteTicks = 0` and `absoluteSeconds = 0.0`
at the start of every track while letting `currentTempo` persist. This
definition follows the spec's words and exists only to be compared with
`convert`, the embedding of the source. -/
def convertPerTrackReset (f : MidiFile) : List OutputRecord :=
  (f.tracks.foldl
    (fun sr t => processTrack f.ticks_per_beat (⟨sr.1.tempo, 0, 0⟩, sr.2) t)
    (initState, [])).2

/-- Exactly five decimal-digit characters for `n < 100000`, most
significant first: the fractional part rendered by Python's `:.5f`. -/
def fracDigits5 (n : ℕ) : String :=
  String.mk [Nat.digitChar (n / 10000 % 10), Nat.digitChar (n / 1000 % 10),
    Nat.digitChar (n / 100 % 10), Nat.digitChar (n / 10 % 10), Nat.digitChar (n % 10)]

/-- The non-negative rational scaled by `10^5` and rounded to the nearest
integer, used to model Python's `:.5f` fixed-point formatting over `ℚ`
(ties are modelled upward; the claims below concern only the shape of the
rendered text, not tie-breaking). -/
def scaled5 (q : ℚ) : ℕ :=
  (round (q * 100000)).toNat

/-- The integer part of the `:.5f` rendering. -/
def intPart5 (q : ℚ) : String :=
  toString (scaled5 q / 100000)

/-- Python's `f"{q:.5f}"` for non-negative `q`, modelled over `ℚ`: the
integer part, a dot, and exactly five fractional digits. -/
def format5 (q : ℚ) : String :=
  intPart5 q ++ "." ++ fracDigits5 (scaled5 q % 100000)

/-- Line 94 of the source:
`f"{action}|{map_note_to_36(msg.note)}|{absolute_second_time:.5f}\n"`
(the record already carries the mapped pitch). -/
def recordLine (r : OutputRecord) : String :=
  r.action ++ "|" ++ toString r.pitch ++ "|" ++ format5 r.time ++ "\n"

/-- The lines written to the output file for a parsed file, in emission
order: one line per note event, nothing else (no header, no summary). -/
def outputLines (f : MidiFile) : List String :=
  (convert f).map recordLine

/-- The full contents of the output file after a successful run: exactly
the concatenation of the emitted lines. -/
def outputContent (f : MidiFile) : String :=
  String.join (outputLines f)

/-- Outcome of `mido.MidiFile(file_path)` on an existing file: a parsed
file, or an exception (malformed input). -/
inductive ParseResult
  | ok (f : MidiFile)
  | err
deriving DecidableEq

/-- Observable outcome of one run of the script: the process exit code,
the contents of the output file afterwards (`none` = the file does not
exist), whether an error diagnostic was printed, and whether the final
success message (`处理完成`, line 100) was printed. -/
structure RunResult where
  exitCode : ℕ
  outFile : Option String
  diagnostic : Bool
  successMsg : Bool
deriving DecidableEq

/-- One run of the script (lines 26-112 of the source). `inputExists`
models `os.path.exists(file_path)`; `pr` models the outcome of parsing;
`prevOut` is the contents of the output file before the run. If the input
is missing the function prints a diagnostic and returns (the output file
is never opened). Otherwise parsing happens before `open(output_filename,
'w')`, so a parse exception is caught and reported with the output file
untouched; on success the output file is opened in `w` mode (truncating
whatever was there) and receives exactly the emitted lines. Every path
returns normally from `ticks_to_seconds`, so the interpreter exits with
code 0 in all cases. -/
def runScript (inputExists : Bool) (pr : ParseResult) (prevOut : Option String) :
    RunResult :=
  if inputExists = false then
    ⟨0, prevOut, true, false⟩
  else
    match pr with
    | ParseResult.err => ⟨0, prevOut, true, false⟩
    | ParseResult.ok f => ⟨0, some (outputContent f), false, true⟩

/-- The tempo update applied by one message (line 83-85 of the source):
`set_tempo` overwrites the current tempo, everything else keeps it. -/
def tempoStep (t : ℕ) (e : Event) : ℕ :=
  if e.type = EvType.set_tempo then e.tempo else t

/-- Well-formedness of an emitted record: the action is one of the two
literals and the pitch is in the folded range. -/
def goodRecord (r : OutputRecord) : Prop :=
  (r.action = "on" ∨ r.action = "off") ∧ 36 ≤ r.pitch ∧ r.pitch ≤ 71

lemma initState_eq : initState = ⟨500000, 0, 0⟩ := by
  unfold initState bpm2tempo
  norm_num [round_eq]
  rfl

lemma map_note_to_36_bounds (n : ℕ) : 36 ≤ map_note_to_36 n ∧ map_note_to_36 n ≤ 71 := by
  unfold map_note_to_36 TARGET_SIZE BASE_NOTE
  have h := Nat.mod_lt n (show 0 < 36 by norm_num)
  omega

lemma processMsg_tempo (ppq : ℕ) (s : TState) (msg : Event) :
    (processMsg ppq s msg).1.tempo = tempoStep s.tempo msg := by
  by_cases h : (msg.type = EvType.note_on ∧ msg.velocity > 0) ∨ msg.type = EvType.note_off <;>
    simp [processMsg, tempoStep, h]

lemma processTrack_tempo (ppq : ℕ) :
    ∀ (t : Track) (sr : TState × List OutputRecord),
      (processTrack ppq sr t).1.tempo = t.foldl tempoStep sr.1.tempo := by
  intro t
  induction t with
  | nil => intro sr; rfl
  | cons m rest ih =>
      intro sr
      rw [processTrack, List.foldl_cons, List.foldl_cons]
      have h := ih (stepTM ppq sr m)
      rw [processTrack] at h
      rw [h]
      have h2 : (stepTM ppq sr m).1 = (processMsg ppq sr.1 m).1 := rfl
      rw [h2, processMsg_tempo]

lemma processTracks_join (ppq : ℕ) :
    ∀ (ts : List Track) (sr : TState × List OutputRecord),
      processTracks ppq sr ts = processTrack ppq sr ts.flatten := by
  intro ts
  induction ts with
  | nil => intro sr; rfl
  | cons t rest ih =>
      intro sr
      rw [processTracks, List.foldl_cons]
      have h := ih (processTrack ppq sr t)
      rw [processTracks] at h
      rw [h, List.flatten_cons, processTrack, processTrack, processTrack, List.foldl_append]

lemma foldl_tempoStep_no_set (init : ℕ) :
    ∀ (evs : List Event), (∀ e ∈ evs, e.type ≠ EvType.set_tempo) →
      evs.foldl tempoStep init = init := by
  intro evs
  induction evs generalizing init with
  | nil => intro _; rfl
  | cons e rest ih =>
      intro h
      rw [List.foldl_cons]
      have he : e.type ≠ EvType.set_tempo := h e (List.mem_cons_self e rest)
      have : tempoStep init e = init := by simp [tempoStep, he]
      rw [this]
      exact ih init fun x hx => h x (List.mem_cons_of_mem e hx)

lemma processMsg_good (ppq : ℕ) (s : TState) (msg : Event) :
    ∀ r ∈ (processMsg ppq s msg).2, goodRecord r := by
  intro r hr
  unfold processMsg at hr
  by_cases h : (msg.type = EvType.note_on ∧ msg.velocity > 0) ∨ msg.type = EvType.note_off
  · rw [if_pos h] at hr
    simp only [List.mem_singleton] at hr
    subst hr
    refine ⟨?_, (map_note_to_36_bounds _).1, (map_note_to_36_bounds _).2⟩
    by_cases h2 : msg.type = EvType.note_on ∧ msg.velocity > 0
    · rw [if_pos h2]; exact Or.inl rfl
    · rw [if_neg h2]; exact Or.inr rfl
  · rw [if_neg h] at hr
    simp at hr

lemma stepTM_good {ppq : ℕ} {sr : TState × List OutputRecord} {msg : Event}
    (h : ∀ r ∈ sr.2, goodRecord r) :
    ∀ r ∈ (stepTM ppq sr msg).2, goodRecord r := by
  intro r hr
  unfold stepTM at hr
  simp only [List.mem_append] at hr
  rcases hr with h1 | h2
  · exact h r h1
  · exact processMsg_good ppq sr.1 msg r h2

lemma processTrack_good {ppq : ℕ} :
    ∀ (t : Track) (sr : TState × List OutputRecord), (∀ r ∈ sr.2, goodRecord r) →
      ∀ r ∈ (processTrack ppq sr t).2, goodRecord r := by
  intro t
  induction t with
  | nil => intro sr h; exact h
  | cons m rest ih =>
      intro sr h
      rw [processTrack, List.foldl_cons]
      exact ih (stepTM ppq sr m) (stepTM_good h)

lemma processTracks_good {ppq : ℕ} :
    ∀ (ts : List Track) (sr : TState × List OutputRecord), (∀ r ∈ sr.2, goodRecord r) →
      ∀ r ∈ (processTracks ppq sr ts).2, goodRecord r := by
  intro ts
  induction ts with
  | nil => intro sr h; exact h
  | cons t rest ih =>
      intro sr h
      rw [processTracks, List.foldl_cons]
      exact ih (processTrack ppq sr t) (processTrack_good t sr h)

lemma convert_good (f : MidiFile) : ∀ r ∈ convert f, goodRecord r := by
  intro r hr
  exact processTracks_good f.tracks (initState, []) (by intro x hx; simp at hx) r hr

lemma digitChar_lt10_isDigit : ∀ d : ℕ, d < 10 → (Nat.digitChar d).isDigit = true := by
  decide

lemma fracDigits5_length (n : ℕ) : (fracDigits5 n).length = 5 := rfl

lemma fracDigits5_digits (n : ℕ) : ∀ c ∈ (fracDigits5 n).data, c.isDigit = true := by
  intro c hc
  simp only [fracDigits5, List.mem_cons, List.not_mem_nil, or_false] at hc
  rcases hc with h | h | h | h | h <;> subst h <;>
    exact digitChar_lt10_isDigit _ (Nat.mod_lt _ (by norm_num))

/-- C3: `map_note_to_36` is the total pure function `note ↦ (note mod 36) + 36`;
for every note in `[0, 127]` the result lies in `[36, 71]`, and the five
listed sample values hold. -/
theorem mapPitch_total_range_values :
    (∀ n : ℕ, map_note_to_36 n = n % 36 + 36) ∧
    (∀ n : ℕ, n ≤ 127 → 36 ≤ map_note_to_36 n ∧ map_note_to_36 n ≤ 71) ∧
    map_note_to_36 0 = 36 ∧ map_note_to_36 35 = 71 ∧ map_note_to_36 36 = 36 ∧
    map_note_to_36 71 = 71 ∧ map_note_to_36 72 = 36 :=
  ⟨fun _ => rfl, fun n _ => map_note_to_36_bounds n, rfl, rfl, rfl, rfl, rfl⟩

/-- Witness for C3 at the concrete note 60. -/
theorem mapPitch_total_range_values_witness :
    (60 : ℕ) ≤ 127 ∧ 36 ≤ map_note_to_36 60 ∧ map_note_to_36 60 ≤ 71 :=
  ⟨by decide, (mapPitch_total_range_values.2.1 60 (by decide)).1,
    (mapPitch_total_range_values.2.1 60 (by decide)).2⟩

/-- C9: `map_note_to_36` is periodic with period 36 on the valid range. -/
theorem mapPitch_periodic_36 (n : ℕ) (h : n + 36 ≤ 127) :
    map_note_to_36 n = map_note_to_36 (n + 36) := by
  unfold map_note_to_36 TARGET_SIZE
  rw [Nat.add_mod_right]

/-- Witness for C9 at the concrete note 60. -/
theorem mapPitch_periodic_36_witness :
    60 + 36 ≤ 127 ∧ map_note_to_36 60 = map_note_to_36 (60 + 36) :=
  ⟨by decide, mapPitch_periodic_36 60 (by decide)⟩

/-- C1 (counterexample): with `ticks_per_beat = 1` and two tracks — the
first holding one `note_off` with delta 1, the second one `note_on` with
delta 0 — the source's conversion stamps the second track's first event
with the nonzero time carried over from track one, while the per-track
reset described by the spec would stamp it with 0: the counters are not
reset at the start of every track. -/
theorem no_per_track_reset_cex :
    ((convert ⟨1, [[⟨EvType.note_off, 1, 0, 0, 0⟩], [⟨EvType.note_on, 0, 60, 100, 0⟩]]⟩).map
        OutputRecord.time = [1 / 500000000000, 1 / 500000000000]) ∧
    ((convertPerTrackReset
        ⟨1, [[⟨EvType.note_off, 1, 0, 0, 0⟩], [⟨EvType.note_on, 0, 60, 100, 0⟩]]⟩).map
        OutputRecord.time = [1 / 500000000000, 0]) ∧
    ((1 : ℚ) / 500000000000) ≠ 0 := by
  refine ⟨?_, ?_, by norm_num⟩
  · simp [convert, processTracks, processTrack, stepTM, processMsg, tick2second, initState_eq]
    norm_num
  · simp [convertPerTrackReset, processTrack, stepTM, processMsg, tick2second, initState_eq]
    norm_num

/-- C1 (amended): the running counters are initialised once before the
first track and never reset, so processing a list of tracks is identical
to processing the single track obtained by concatenating them all. -/
theorem convert_accumulates_globally (ppq : ℕ) (ts : List Track) :
    convert ⟨ppq, ts⟩ = convert ⟨ppq, [ts.flatten]⟩ := by
  show (processTracks ppq (initState, []) ts).2
      = (processTracks ppq (initState, []) [ts.flatten]).2
  rw [processTracks_join, processTracks, List.foldl_cons, List.foldl_nil]

/-- C2 (counterexample): a file whose only message is a `note_on` with
velocity 0 produces no output record at all — in particular no record with
action `off`. -/
theorem note_on_vel0_dropped_cex :
    convert ⟨480, [[⟨EvType.note_on, 0, 60, 0, 0⟩]]⟩ = [] ∧
    ¬ ∃ r ∈ convert ⟨480, [[⟨EvType.note_on, 0, 60, 0, 0⟩]]⟩, r.action = "off" := by
  have h : convert ⟨480, [[⟨EvType.note_on, 0, 60, 0, 0⟩]]⟩ = [] := by
    simp [convert, processTracks, processTrack, stepTM, processMsg]
  exact ⟨h, by simp [h]⟩

/-- C2 (amended): a `note_on` message with velocity 0 is silently dropped:
the loop body emits no record for it (it neither matches the positive
velocity `note_on` branch nor the `note_off` test). -/
theorem note_on_vel0_emits_nothing (ppq : ℕ) (s : TState) (msg : Event)
    (h1 : msg.type = EvType.note_on) (h2 : msg.velocity = 0) :
    (processMsg ppq s msg).2 = [] := by
  simp [processMsg, h1, h2]

/-- Witness for the amended C2 at a concrete velocity-0 `note_on`. -/
theorem note_on_vel0_emits_nothing_witness :
    (⟨EvType.note_on, 0, 60, 0, 0⟩ : Event).type = EvType.note_on ∧
    (⟨EvType.note_on, 0, 60, 0, 0⟩ : Event).velocity = 0 ∧
    (processMsg 480 ⟨500000, 0, 0⟩ ⟨EvType.note_on, 0, 60, 0, 0⟩).2 = [] :=
  ⟨rfl, rfl, note_on_vel0_emits_nothing 480 ⟨500000, 0, 0⟩ ⟨EvType.note_on, 0, 60, 0, 0⟩ rfl rfl⟩

/-- C4 (code bug): at `ticks_per_beat = 480`, tempo 500000 µs/beat and a
message with delta 480 ticks, the source's call
`mido.tick2second(msg.time, current_tempo, ppq)` — which puts
`current_tempo` in the library's `ticks_per_beat` slot and `ppq` in its
`tempo` slot — yields `9 / 19531250` seconds, while the documented formula
`deltaTicks * (tempoMicros / 1e6) / ticksPerBeat` yields `1 / 2`. -/
theorem tick2second_arguments_swapped :
    (processMsg 480 ⟨500000, 0, 0⟩ ⟨EvType.note_on, 480, 60, 100, 0⟩).1.secs
        = 9 / 19531250 ∧
    (480 : ℚ) * ((500000 : ℚ) / 1000000) / 480 = 1 / 2 ∧
    ((9 : ℚ) / 19531250) ≠ 1 / 2 := by
  refine ⟨?_, by norm_num, by norm_num⟩
  simp [processMsg, tick2second]
  norm_num

/-- C5: the current tempo starts at `mido.bpm2tempo(120) = 500000` and is
threaded across tracks without reset: after processing any track list it
equals the fold of the tempo updates over the concatenated event stream,
and that fold is exactly the most recent `set_tempo` value seen, or 500000
when none occurred. -/
theorem currentTempo_policy (ppq : ℕ) (ts : List Track) :
    initState.tempo = 500000 ∧
    (processTracks ppq (initState, []) ts).1.tempo = ts.flatten.foldl tempoStep 500000 ∧
    (∀ evs : List Event, (∀ e ∈ evs, e.type ≠ EvType.set_tempo) →
      evs.foldl tempoStep 500000 = 500000) ∧
    (∀ (pre post : List Event) (e : Event), e.type = EvType.set_tempo →
      (∀ x ∈ post, x.type ≠ EvType.set_tempo) →
      (pre ++ e :: post).foldl tempoStep 500000 = e.tempo) := by
  refine ⟨by rw [initState_eq], ?_, ?_, ?_⟩
  · simp [processTracks_join, processTrack_tempo, initState_eq]
  · intro evs h
    exact foldl_tempoStep_no_set 500000 evs h
  · intro pre post e he hpost
    rw [List.foldl_append, List.foldl_cons]
    have h : tempoStep (pre.foldl tempoStep 500000) e = e.tempo := by simp [tempoStep, he]
    rw [h]
    exact foldl_tempoStep_no_set e.tempo post hpost

/-- Witness for C5: a single `set_tempo` message overrides the 500000
default. -/
theorem currentTempo_policy_witness :
    (⟨EvType.set_tempo, 0, 0, 0, 300000⟩ : Event).type = EvType.set_tempo ∧
    (([] ++ (⟨EvType.set_tempo, 0, 0, 0, 300000⟩ : Event) :: []).foldl tempoStep 500000
      = 300000) :=
  ⟨rfl, (currentTempo_policy 480 []).2.2.2 [] [] ⟨EvType.set_tempo, 0, 0, 0, 300000⟩ rfl
    (by intro x hx; simp at hx)⟩

/-- C6 (counterexample): both failure modes — missing input file and parse
error — leave the process exit code at 0, not non-zero (the script prints
a diagnostic and returns normally). -/
theorem failing_run_exit_zero_cex :
    (runScript false ParseResult.err none).exitCode = 0 ∧
    (runScript true ParseResult.err none).exitCode = 0 ∧
    (runScript false ParseResult.err none).diagnostic = true :=
  ⟨rfl, rfl, rfl⟩

/-- C6 (amended): every failing run — missing input file or parse error —
emits a diagnostic, prints no success message and leaves the output file
untouched, but the process exits with code 0. -/
theorem failing_run_diag_exit0 (b : Bool) (pr : ParseResult) (prev : Option String)
    (h : b = false ∨ pr = ParseResult.err) :
    (runScript b pr prev).exitCode = 0 ∧ (runScript b pr prev).diagnostic = true ∧
    (runScript b pr prev).successMsg = false ∧ (runScript b pr prev).outFile = prev := by
  rcases h with h | h
  · subst h
    exact ⟨rfl, rfl, rfl, rfl⟩
  · subst h
    cases b
    · exact ⟨rfl, rfl, rfl, rfl⟩
    · exact ⟨rfl, rfl, rfl, rfl⟩

/-- Witness for the amended C6 at a concrete failing run. -/
theorem failing_run_diag_exit0_witness :
    (false = false ∨ (ParseResult.err : ParseResult) = ParseResult.err) ∧
    ((runScript false ParseResult.err none).exitCode = 0 ∧
      (runScript false ParseResult.err none).diagnostic = true ∧
      (runScript false ParseResult.err none).successMsg = false ∧
      (runScript false ParseResult.err none).outFile = none) :=
  ⟨Or.inl rfl, failing_run_diag_exit0 false ParseResult.err none (Or.inl rfl)⟩

/-- C7: when the input path does not exist the run terminates through the
early-return branch (no unhandled fault in the model), the output file is
left exactly as it was — in particular it is not created when it did not
exist — no success is claimed and a diagnostic is printed; no records are
produced. -/
theorem missing_input_no_output (pr : ParseResult) (prev : Option String) :
    (runScript false pr prev).outFile = prev ∧
    (runScript false pr prev).diagnostic = true ∧
    (runScript false pr prev).successMsg = false :=
  ⟨rfl, rfl, rfl⟩

/-- C10: a successful run opens the output file in `w` mode: the resulting
contents are exactly this run's records, independent of whatever the file
held before — nothing is appended to pre-existing content. -/
theorem output_overwritten_on_success (f : MidiFile) (prev1 prev2 : Option String) :
    (runScript true (ParseResult.ok f) prev1).outFile = some (outputContent f) ∧
    (runScript true (ParseResult.ok f) prev1).outFile
      = (runScript true (ParseResult.ok f) prev2).outFile :=
  ⟨rfl, rfl⟩

/-- C8: the output file is exactly the concatenation of the emitted lines
— no header, no trailing summary — and every line is
`<action>|<pitch>|<time>` followed by a newline, where the action is `on`
or `off`, the pitch is an integer in `[36, 71]` and the time is rendered
with an integer part, a dot and exactly five decimal digits. -/
theorem output_line_format (f : MidiFile) :
    outputContent f = String.join ((convert f).map recordLine) ∧
    ∀ l ∈ (convert f).map recordLine, ∃ a p t,
      (a = "on" ∨ a = "off") ∧ 36 ≤ p ∧ p ≤ 71 ∧
      l = a ++ "|" ++ toString p ++ "|" ++ format5 t ++ "\n" ∧
      ∃ fs, format5 t = intPart5 t ++ "." ++ fs ∧ fs.length = 5 ∧
        ∀ c ∈ fs.data, c.isDigit = true := by
  refine ⟨rfl, ?_⟩
  intro l hl
  rcases List.mem_map.mp hl with ⟨r, hr, hlr⟩
  obtain ⟨ha, hp1, hp2⟩ := convert_good f r hr
  exact ⟨r.action, r.pitch, r.time, ha, hp1, hp2, hlr.symm,
    fracDigits5 (scaled5 r.time % 100000), rfl, fracDigits5_length _, fracDigits5_digits _⟩

/-- Witness for C8 on the line produced by a one-message file. -/
theorem output_line_format_witness :
    ∃ a p t, (a = "on" ∨ a = "off") ∧ 36 ≤ p ∧ p ≤ 71 ∧
      recordLine ⟨"off", 36, 0⟩ = a ++ "|" ++ toString p ++ "|" ++ format5 t ++ "\n" ∧
      ∃ fs, format5 t = intPart5 t ++ "." ++ fs ∧ fs.length = 5 ∧
        ∀ c ∈ fs.data, c.isDigit = true :=
  (output_line_format ⟨480, [[⟨EvType.note_off, 0, 0, 0, 0⟩]]⟩).2 (recordLine ⟨"off", 36, 0⟩)
    (by
      have h : convert ⟨480, [[⟨EvType.note_off, 0, 0, 0, 0⟩]]⟩ = [⟨"off", 36, 0⟩] := by
        simp [convert, processTracks, processTrack, stepTM, processMsg, tick2second,
          initState_eq, map_note_to_36, TARGET_SIZE, BASE_NOTE]
      rw [h]
      exact List.mem_map_of_mem recordLine (List.mem_singleton.mpr rfl))

end CCMidiParser
